import Mathlib

/-!
Verification of the termdash `internal/area` package and the table
`Cell` construction API (content_cell.go), shallowly embedded in Lean.

Go machine integers are modelled as `Int` (the values involved are far
from overflow in all claims considered); Go's truncating integer
division `/` is `Int.tdiv`.  Functions that in Go return a value
together with an `error` are modelled as returning the value paired
with an `Option String` (`none` = nil error).
-/

namespace Termdash

/-- Go `image.Point`: an integer pair. -/
structure Point where
  X : Int
  Y : Int
deriving DecidableEq, Repr

/-- Go `image.Rectangle`: two corner points. -/
structure Rectangle where
  Min : Point
  Max : Point
deriving DecidableEq, Repr

/-- Go `image.ZP`, the zero point. -/
def ZP : Point := ⟨0, 0⟩

/-- Go `image.ZR`, the zero rectangle. -/
def ZR : Rectangle := ⟨ZP, ZP⟩

/-- Go `image.Rect(x0, y0, x1, y1)`: swaps the coordinates when needed so
that the result is well-formed, exactly as the Go standard library does. -/
def rect (x0 y0 x1 y1 : Int) : Rectangle :=
  let px := if x0 > x1 then (x1, x0) else (x0, x1)
  let py := if y0 > y1 then (y1, y0) else (y0, y1)
  ⟨⟨px.1, py.1⟩, ⟨px.2, py.2⟩⟩

/-- Go `Rectangle.Dx()`: the width of the rectangle. -/
def Rectangle.Dx (r : Rectangle) : Int := r.Max.X - r.Min.X

/-- Go `Rectangle.Dy()`: the height of the rectangle. -/
def Rectangle.Dy (r : Rectangle) : Int := r.Max.Y - r.Min.Y

/-- Go's integer division: truncation toward zero. -/
def goDiv (a b : Int) : Int := Int.tdiv a b

/-- Modelled from the spec: the numeric helper collaborator's "absolute
value" (§6, `numbers.Abs`), whose source is not part of the material. -/
def Abs (a : Int) : Int := if a < 0 then -a else a

/-- Modelled from the spec: the numeric helper collaborator's "ratio
simplification via GCD" (§6, `numbers.SimplifyRatio`), whose source is not
part of the material.  The spec requires `WithRatio` (§4.1) to be total and
to return the zero rectangle exactly when the reduced ratio is the zero
point; since `WithRatio` divides by both components of the reduced ratio,
a ratio having a zero component must simplify to the zero point (its GCD
is taken to be 0).  A ratio with two nonzero components is divided
componentwise by the positive GCD of the absolute values, preserving
signs; the divisions are exact. -/
def SimplifyRatio (p : Point) : Point :=
  if p.X = 0 ∨ p.Y = 0 then ZP
  else
    let g : Int := Int.gcd p.X p.Y
    ⟨goDiv p.X g, goDiv p.Y g⟩

/-- Modelled from the spec: the numeric helper collaborator's "min/max
selection over a set of integers" (§6, `numbers.MinMaxInts`), whose source
is not part of the material.  Only ever called on two-element lists here;
the value on the empty list is irrelevant. -/
def MinMaxInts : List Int → Int × Int
  | [] => (0, 0)
  | v :: vs => vs.foldl (fun p w => (min p.1 w, max p.2 w)) (v, v)

/-- `area.Size`: the size of the provided area. -/
def Size (area : Rectangle) : Point := ⟨area.Dx, area.Dy⟩

/-- `area.FromSize`: the corresponding area for the provided size. -/
def FromSize (size : Point) : Rectangle × Option String :=
  if size.X < 0 ∨ size.Y < 0 then
    (ZR, some "cannot convert zero or negative size to an area")
  else
    (rect 0 0 size.X size.Y, none)

/-- `area.HSplit`: splits the area at the given percentage of its height. -/
def HSplit (area : Rectangle) (heightPerc : Int) :
    Rectangle × Rectangle × Option String :=
  if heightPerc < 0 ∨ heightPerc > 100 then
    (ZR, ZR, some "invalid heightPerc, must be in range 0 <= heightPerc <= 100")
  else
    let height := goDiv (area.Dy * heightPerc) 100
    let top := rect area.Min.X area.Min.Y area.Max.X (area.Min.Y + height)
    let top := if top.Dy = 0 then ZR else top
    let bottom := rect area.Min.X (area.Min.Y + height) area.Max.X area.Max.Y
    let bottom := if bottom.Dy = 0 then ZR else bottom
    (top, bottom, none)

/-- `area.VSplit`: splits the area at the given percentage of its width. -/
def VSplit (area : Rectangle) (widthPerc : Int) :
    Rectangle × Rectangle × Option String :=
  if widthPerc < 0 ∨ widthPerc > 100 then
    (ZR, ZR, some "invalid widthPerc, must be in range 0 <= widthPerc <= 100")
  else
    let width := goDiv (area.Dx * widthPerc) 100
    let left := rect area.Min.X area.Min.Y (area.Min.X + width) area.Max.Y
    let left := if left.Dx = 0 then ZR else left
    let right := rect (area.Min.X + width) area.Min.Y area.Max.X area.Max.Y
    let right := if right.Dx = 0 then ZR else right
    (left, right, none)

/-- `area.ExcludeBorder`: subtracts a one-cell border around the area. -/
def ExcludeBorder (area : Rectangle) : Rectangle :=
  if area.Dx < 2 ∨ area.Dy < 2 then ZR
  else
    rect (Abs (area.Min.X + 1)) (Abs (area.Min.Y + 1))
      (Abs (area.Max.X - 1)) (Abs (area.Max.Y - 1))

/-- `area.WithRatio`: the largest area of the requested ratio inside the
area.  Go panics on integer division by zero; the (unreachable) guard
returning `none` models that panic, so `some` results are exactly the Go
function's normal returns. -/
def WithRatio (area : Rectangle) (p : Point) : Option Rectangle :=
  let q := SimplifyRatio p
  if area = ZR ∨ q = ZP then some ZR
  else if q.X = 0 ∨ q.Y = 0 then none
  else
    let wFact := goDiv area.Dx q.X
    let hFact := goDiv area.Dy q.Y
    let fact := if wFact < hFact then wFact else hFact
    some (rect area.Min.X area.Min.Y
      (q.X * fact + area.Min.X) (q.Y * fact + area.Min.Y))

/-- The `WithRatio` algorithm as the spec words it (§4.1): reduce the
ratio to lowest terms via greatest-common-divisor; if either the area or
the reduced ratio is the zero point, return the zero rectangle; otherwise
`scale` is the minimum of `area.width / ratio.x` and `area.height /
ratio.y` under integer division, and the result is a rectangle of size
`(ratio.x * scale, ratio.y * scale)` at the area's origin corner.  Stated
to be compared with `WithRatio` as embedded from the code. -/
def withRatioSpec (area : Rectangle) (p : Point) : Rectangle :=
  let q := SimplifyRatio p
  if area = ZR ∨ q = ZP then ZR
  else
    let scale := min (goDiv area.Dx q.X) (goDiv area.Dy q.Y)
    rect area.Min.X area.Min.Y
      (q.X * scale + area.Min.X) (q.Y * scale + area.Min.Y)

/-- `area.Shrink`: reduces the area by the given number of cells per side. -/
def Shrink (area : Rectangle) (topCells rightCells bottomCells leftCells : Int) :
    Rectangle × Option String :=
  if topCells < 0 ∨ rightCells < 0 ∨ bottomCells < 0 ∨ leftCells < 0 then
    (ZR, some "invalid value, must be in range 0 <= value")
  else
    let newMinX := (MinMaxInts [area.Min.X + leftCells, area.Max.X]).1
    let newMaxX := (MinMaxInts [area.Max.X - rightCells, newMinX]).2
    let newMinY := (MinMaxInts [area.Min.Y + topCells, area.Max.Y]).1
    let newMaxY := (MinMaxInts [area.Max.Y - bottomCells, newMinY]).2
    let shrinked : Rectangle := ⟨⟨newMinX, newMinY⟩, ⟨newMaxX, newMaxY⟩⟩
    if shrinked.Dx = 0 ∨ shrinked.Dy = 0 then (ZR, none)
    else (shrinked, none)

/-- `area.ShrinkPercent`: reduces the area by a percentage of its width or
height per side, delegating to `Shrink`. -/
def ShrinkPercent (area : Rectangle) (topPerc rightPerc bottomPerc leftPerc : Int) :
    Rectangle × Option String :=
  if topPerc < 0 ∨ topPerc > 100 ∨ rightPerc < 0 ∨ rightPerc > 100 ∨
      bottomPerc < 0 ∨ bottomPerc > 100 ∨ leftPerc < 0 ∨ leftPerc > 100 then
    (ZR, some "invalid value, must be in range 0 <= value <= 100")
  else
    Shrink area (goDiv (area.Dy * topPerc) 100) (goDiv (area.Dx * rightPerc) 100)
      (goDiv (area.Dy * bottomPerc) 100) (goDiv (area.Dx * leftPerc) 100)

/-- The horizontal alignment enumeration (`align.Horizontal`), an external
collaborator consumed through its contract. -/
inductive Horizontal where
  | left
  | center
  | right
deriving DecidableEq, Repr

/-- The vertical alignment enumeration (`align.Vertical`), an external
collaborator consumed through its contract. -/
inductive Vertical where
  | top
  | middle
  | bottom
deriving DecidableEq, Repr

/-- The wrap-mode enumeration (`wrap.Mode`), an external collaborator:
trim (the default) versus wrap at word boundaries (`wrap.AtWords`). -/
inductive WrapMode where
  | trim
  | atWords
deriving DecidableEq, Repr

/-- An element of the per-cell style-attribute list (`cell.Option`), an
external collaborator passed through unexamined; represented by an
uninterpreted token. -/
structure StyleOption where
  tok : Nat
deriving DecidableEq, Repr

/-- A `Data` text fragment, an external collaborator responsible for its
own content validation; its content is carried along untouched. -/
structure Data where
  text : String
deriving DecidableEq, Repr

/-- The `Data` constructor (content validation happens there in the real
program and is out of scope here). -/
def NewData (text : String) : Data := ⟨text⟩

/-- Modelled from the spec: the `hierarchicalOptions` record (§3
HierarchicalOptions), whose own declaration (content.go) is not part of
the material; its fields and their types are exactly the ones the cell
option setters of content_cell.go assign to: `cellOpts`, `height`,
`horizontalPadding`, `verticalPadding`, `alignHorizontal`,
`alignVertical`, `wrapMode`, each optional field nil/`none` when unset. -/
structure hierarchicalOptions where
  cellOpts : List StyleOption
  height : Option Int
  horizontalPadding : Option Int
  verticalPadding : Option Int
  alignHorizontal : Option Horizontal
  alignVertical : Option Vertical
  wrapMode : Option WrapMode
deriving DecidableEq, Repr

/-- The all-unset `&hierarchicalOptions{}` record NewCellWithOpts starts
from. -/
def emptyHierarchicalOptions : hierarchicalOptions :=
  ⟨[], none, none, none, none, none, none⟩

/-- `Cell`: one cell in a table row (content_cell.go). -/
structure Cell where
  data : List Data
  colSpan : Int
  rowSpan : Int
  hierarchical : hierarchicalOptions
deriving DecidableEq, Repr

/-- `CellOption`: an option mutating a Cell under construction; Go's
`set(*Cell)` mutation is embedded as a function producing the updated
cell. -/
def CellOption := Cell → Cell

/-- `CellColSpan`: sets the number of columns the cell spans. -/
def CellColSpan (cols : Int) : CellOption :=
  fun c => ⟨c.data, cols, c.rowSpan, c.hierarchical⟩

/-- `CellRowSpan`: sets the number of rows the cell spans. -/
def CellRowSpan (rows : Int) : CellOption :=
  fun c => ⟨c.data, c.colSpan, rows, c.hierarchical⟩

/-- `CellOpts`: sets the style options of the cell's terminal cells. -/
def CellOpts (cellOpts : List StyleOption) : CellOption :=
  fun c => ⟨c.data, c.colSpan, c.rowSpan,
    ⟨cellOpts, c.hierarchical.height, c.hierarchical.horizontalPadding,
      c.hierarchical.verticalPadding, c.hierarchical.alignHorizontal,
      c.hierarchical.alignVertical, c.hierarchical.wrapMode⟩⟩

/-- `CellHeight`: sets the height of the cell. -/
def CellHeight (height : Int) : CellOption :=
  fun c => ⟨c.data, c.colSpan, c.rowSpan,
    ⟨c.hierarchical.cellOpts, some height, c.hierarchical.horizontalPadding,
      c.hierarchical.verticalPadding, c.hierarchical.alignHorizontal,
      c.hierarchical.alignVertical, c.hierarchical.wrapMode⟩⟩

/-- `CellHorizontalPadding`: sets the horizontal padding of the cell. -/
def CellHorizontalPadding (cells : Int) : CellOption :=
  fun c => ⟨c.data, c.colSpan, c.rowSpan,
    ⟨c.hierarchical.cellOpts, c.hierarchical.height, some cells,
      c.hierarchical.verticalPadding, c.hierarchical.alignHorizontal,
      c.hierarchical.alignVertical, c.hierarchical.wrapMode⟩⟩

/-- `CellVerticalPadding`: sets the vertical padding of the cell. -/
def CellVerticalPadding (cells : Int) : CellOption :=
  fun c => ⟨c.data, c.colSpan, c.rowSpan,
    ⟨c.hierarchical.cellOpts, c.hierarchical.height,
      c.hierarchical.horizontalPadding, some cells,
      c.hierarchical.alignHorizontal, c.hierarchical.alignVertical,
      c.hierarchical.wrapMode⟩⟩

/-- `CellAlignHorizontal`: sets the horizontal alignment of the content. -/
def CellAlignHorizontal (h : Horizontal) : CellOption :=
  fun c => ⟨c.data, c.colSpan, c.rowSpan,
    ⟨c.hierarchical.cellOpts, c.hierarchical.height,
      c.hierarchical.horizontalPadding, c.hierarchical.verticalPadding,
      some h, c.hierarchical.alignVertical, c.hierarchical.wrapMode⟩⟩

/-- `CellAlignVertical`: sets the vertical alignment of the content. -/
def CellAlignVertical (v : Vertical) : CellOption :=
  fun c => ⟨c.data, c.colSpan, c.rowSpan,
    ⟨c.hierarchical.cellOpts, c.hierarchical.height,
      c.hierarchical.horizontalPadding, c.hierarchical.verticalPadding,
      c.hierarchical.alignHorizontal, some v, c.hierarchical.wrapMode⟩⟩

/-- `CellWrapAtWords`: sets the content to be wrapped at words. -/
def CellWrapAtWords : CellOption :=
  fun c => ⟨c.data, c.colSpan, c.rowSpan,
    ⟨c.hierarchical.cellOpts, c.hierarchical.height,
      c.hierarchical.horizontalPadding, c.hierarchical.verticalPadding,
      c.hierarchical.alignHorizontal, c.hierarchical.alignVertical,
      some WrapMode.atWords⟩⟩

/-- `NewCellWithOpts`: builds a Cell with the provided data fragments and
applies the options in the given order. -/
def NewCellWithOpts (data : List Data) (opts : List CellOption) : Cell :=
  opts.foldl (fun c opt => opt c) ⟨data, 1, 1, emptyHierarchicalOptions⟩

/-- `NewCell`: builds a Cell with a single data fragment and no options. -/
def NewCell (text : String) : Cell :=
  NewCellWithOpts [NewData text] []

/-! ## Helper lemmas -/

theorem rect_of_le {x0 y0 x1 y1 : Int} (hx : x0 ≤ x1) (hy : y0 ≤ y1) :
    rect x0 y0 x1 y1 = ⟨⟨x0, y0⟩, ⟨x1, y1⟩⟩ := by
  simp [rect, not_lt.2 hx, not_lt.2 hy]

@[simp] theorem Dx_mk (x0 y0 x1 y1 : Int) :
    Rectangle.Dx ⟨⟨x0, y0⟩, ⟨x1, y1⟩⟩ = x1 - x0 := rfl

@[simp] theorem Dy_mk (x0 y0 x1 y1 : Int) :
    Rectangle.Dy ⟨⟨x0, y0⟩, ⟨x1, y1⟩⟩ = y1 - y0 := rfl

@[simp] theorem ZR_Dx : ZR.Dx = 0 := rfl

@[simp] theorem ZR_Dy : ZR.Dy = 0 := rfl

theorem goDiv_nonneg {a b : Int} (ha : 0 ≤ a) (hb : 0 ≤ b) : 0 ≤ goDiv a b :=
  Int.tdiv_nonneg ha hb

theorem goDiv_eq_ediv {a b : Int} (ha : 0 ≤ a) (hb : 0 ≤ b) :
    goDiv a b = a / b :=
  Int.tdiv_eq_ediv ha hb

theorem percDiv_le {d p : Int} (hd : 0 ≤ d) (hp0 : 0 ≤ p) (hp1 : p ≤ 100) :
    goDiv (d * p) 100 ≤ d := by
  rw [goDiv_eq_ediv (mul_nonneg hd hp0) (by norm_num)]
  calc d * p / 100 ≤ d * 100 / 100 :=
        Int.ediv_le_ediv (by norm_num) (by nlinarith)
    _ = d := Int.mul_ediv_cancel d (by norm_num)

theorem Abs_of_nonneg {a : Int} (h : 0 ≤ a) : Abs a = a := by
  simp [Abs, not_lt.2 h]

@[simp] theorem MinMaxInts_pair (a b : Int) :
    MinMaxInts [a, b] = (min a b, max a b) := rfl

theorem HSplit_inRange {area : Rectangle} {perc : Int}
    (hx : area.Min.X ≤ area.Max.X) (hy : area.Min.Y ≤ area.Max.Y)
    (hp0 : 0 ≤ perc) (hp1 : perc ≤ 100) :
    HSplit area perc =
      ((if goDiv ((area.Max.Y - area.Min.Y) * perc) 100 = 0 then ZR
        else ⟨⟨area.Min.X, area.Min.Y⟩,
          ⟨area.Max.X, area.Min.Y + goDiv ((area.Max.Y - area.Min.Y) * perc) 100⟩⟩),
       (if area.Max.Y - area.Min.Y - goDiv ((area.Max.Y - area.Min.Y) * perc) 100 = 0
        then ZR
        else ⟨⟨area.Min.X, area.Min.Y + goDiv ((area.Max.Y - area.Min.Y) * perc) 100⟩,
          ⟨area.Max.X, area.Max.Y⟩⟩),
       none) := by
  have hDy : (0 : Int) ≤ area.Max.Y - area.Min.Y := by linarith
  have h0 : 0 ≤ goDiv ((area.Max.Y - area.Min.Y) * perc) 100 :=
    goDiv_nonneg (mul_nonneg hDy hp0) (by norm_num)
  have hle : goDiv ((area.Max.Y - area.Min.Y) * perc) 100 ≤ area.Max.Y - area.Min.Y :=
    percDiv_le hDy hp0 hp1
  have ht := @rect_of_le area.Min.X area.Min.Y area.Max.X
    (area.Min.Y + goDiv ((area.Max.Y - area.Min.Y) * perc) 100) hx (by linarith)
  have hb := @rect_of_le area.Min.X
    (area.Min.Y + goDiv ((area.Max.Y - area.Min.Y) * perc) 100) area.Max.X
    area.Max.Y hx (by linarith)
  simp only [HSplit, Rectangle.Dy, if_neg (show ¬(perc < 0 ∨ perc > 100) by omega)]
  rw [ht, hb]
  simp only [Dy_mk, add_sub_cancel_left, sub_add_eq_sub_sub]

theorem VSplit_inRange {area : Rectangle} {perc : Int}
    (hx : area.Min.X ≤ area.Max.X) (hy : area.Min.Y ≤ area.Max.Y)
    (hp0 : 0 ≤ perc) (hp1 : perc ≤ 100) :
    VSplit area perc =
      ((if goDiv ((area.Max.X - area.Min.X) * perc) 100 = 0 then ZR
        else ⟨⟨area.Min.X, area.Min.Y⟩,
          ⟨area.Min.X + goDiv ((area.Max.X - area.Min.X) * perc) 100, area.Max.Y⟩⟩),
       (if area.Max.X - area.Min.X - goDiv ((area.Max.X - area.Min.X) * perc) 100 = 0
        then ZR
        else ⟨⟨area.Min.X + goDiv ((area.Max.X - area.Min.X) * perc) 100, area.Min.Y⟩,
          ⟨area.Max.X, area.Max.Y⟩⟩),
       none) := by
  have hDx : (0 : Int) ≤ area.Max.X - area.Min.X := by linarith
  have h0 : 0 ≤ goDiv ((area.Max.X - area.Min.X) * perc) 100 :=
    goDiv_nonneg (mul_nonneg hDx hp0) (by norm_num)
  have hle : goDiv ((area.Max.X - area.Min.X) * perc) 100 ≤ area.Max.X - area.Min.X :=
    percDiv_le hDx hp0 hp1
  have hl := @rect_of_le area.Min.X area.Min.Y
    (area.Min.X + goDiv ((area.Max.X - area.Min.X) * perc) 100) area.Max.Y
    (by linarith) hy
  have hr := @rect_of_le
    (area.Min.X + goDiv ((area.Max.X - area.Min.X) * perc) 100) area.Min.Y
    area.Max.X area.Max.Y (by linarith) hy
  simp only [VSplit, Rectangle.Dx, if_neg (show ¬(perc < 0 ∨ perc > 100) by omega)]
  rw [hl, hr]
  simp only [Dx_mk, add_sub_cancel_left, sub_add_eq_sub_sub]

/-! ## Claim theorems -/

/-- C1: for an area with `Min ≤ Max` componentwise, `HSplit` errors exactly
when the percentage is outside `[0, 100]`; on success the top half's height
is `floor(area.height * heightPerc / 100)`, the two heights sum to the
area's height, and a half whose computed height is 0 is the zero rectangle;
`VSplit` satisfies the symmetric property along the width. -/
theorem hsplit_vsplit_spec (area : Rectangle) (perc : Int)
    (hx : area.Min.X ≤ area.Max.X) (hy : area.Min.Y ≤ area.Max.Y) :
    ((HSplit area perc).2.2 ≠ none ↔ perc < 0 ∨ 100 < perc) ∧
    ((VSplit area perc).2.2 ≠ none ↔ perc < 0 ∨ 100 < perc) ∧
    (0 ≤ perc → perc ≤ 100 →
      ((HSplit area perc).1.Dy = area.Dy * perc / 100 ∧
        (HSplit area perc).1.Dy + (HSplit area perc).2.1.Dy = area.Dy ∧
        (area.Dy * perc / 100 = 0 → (HSplit area perc).1 = ZR) ∧
        (area.Dy - area.Dy * perc / 100 = 0 → (HSplit area perc).2.1 = ZR)) ∧
      ((VSplit area perc).1.Dx = area.Dx * perc / 100 ∧
        (VSplit area perc).1.Dx + (VSplit area perc).2.1.Dx = area.Dx ∧
        (area.Dx * perc / 100 = 0 → (VSplit area perc).1 = ZR) ∧
        (area.Dx - area.Dx * perc / 100 = 0 → (VSplit area perc).2.1 = ZR))) := by
  refine ⟨?_, ?_, fun hp0 hp1 => ?_⟩
  · by_cases hp : perc < 0 ∨ 100 < perc
    · have hp' : perc < 0 ∨ perc > 100 := hp
      simp only [HSplit, if_pos hp']
      simp <;> omega
    · rw [HSplit_inRange hx hy (by omega) (by omega)]
      simp <;> omega
  · by_cases hp : perc < 0 ∨ 100 < perc
    · have hp' : perc < 0 ∨ perc > 100 := hp
      simp only [VSplit, if_pos hp']
      simp <;> omega
    · rw [VSplit_inRange hx hy (by omega) (by omega)]
      simp <;> omega
  · have hDy0 : (0 : Int) ≤ area.Max.Y - area.Min.Y := by linarith
    have hDx0 : (0 : Int) ≤ area.Max.X - area.Min.X := by linarith
    have hey : goDiv ((area.Max.Y - area.Min.Y) * perc) 100 =
        (area.Max.Y - area.Min.Y) * perc / 100 :=
      goDiv_eq_ediv (mul_nonneg hDy0 hp0) (by norm_num)
    have hex : goDiv ((area.Max.X - area.Min.X) * perc) 100 =
        (area.Max.X - area.Min.X) * perc / 100 :=
      goDiv_eq_ediv (mul_nonneg hDx0 hp0) (by norm_num)
    have h0y : 0 ≤ goDiv ((area.Max.Y - area.Min.Y) * perc) 100 :=
      goDiv_nonneg (mul_nonneg hDy0 hp0) (by norm_num)
    have h0x : 0 ≤ goDiv ((area.Max.X - area.Min.X) * perc) 100 :=
      goDiv_nonneg (mul_nonneg hDx0 hp0) (by norm_num)
    have hley : goDiv ((area.Max.Y - area.Min.Y) * perc) 100 ≤
        area.Max.Y - area.Min.Y := percDiv_le hDy0 hp0 hp1
    have hlex : goDiv ((area.Max.X - area.Min.X) * perc) 100 ≤
        area.Max.X - area.Min.X := percDiv_le hDx0 hp0 hp1
    rw [HSplit_inRange hx hy hp0 hp1, VSplit_inRange hx hy hp0 hp1]
    simp only [Rectangle.Dx, Rectangle.Dy]
    rw [← hey, ← hex]
    generalize hgy : goDiv ((area.Max.Y - area.Min.Y) * perc) 100 = gy
    rw [hgy] at h0y hley
    generalize hgx : goDiv ((area.Max.X - area.Min.X) * perc) 100 = gx
    rw [hgx] at h0x hlex
    refine ⟨⟨?_, ?_, fun hz => ?_, fun hz => ?_⟩,
      ?_, ?_, fun hz => ?_, fun hz => ?_⟩ <;>
      split_ifs with h1 h2 <;> simp [ZR, ZP] <;> omega

/-- C1 witness: the theorem instantiated on the area (0,0)-(10,10) split at
30 percent. -/
theorem hsplit_vsplit_spec_witness :
    (HSplit ⟨⟨0, 0⟩, ⟨10, 10⟩⟩ 30).1.Dy =
        Rectangle.Dy ⟨⟨0, 0⟩, ⟨10, 10⟩⟩ * 30 / 100 ∧
      (HSplit ⟨⟨0, 0⟩, ⟨10, 10⟩⟩ 30).1.Dy +
          (HSplit ⟨⟨0, 0⟩, ⟨10, 10⟩⟩ 30).2.1.Dy =
        Rectangle.Dy ⟨⟨0, 0⟩, ⟨10, 10⟩⟩ := by
  have h := hsplit_vsplit_spec ⟨⟨0, 0⟩, ⟨10, 10⟩⟩ 30 (by decide) (by decide)
  exact ⟨(h.2.2 (by decide) (by decide)).1.1, (h.2.2 (by decide) (by decide)).1.2.1⟩

/-- C3 counterexample: on the area (-5,-5)-(5,5), whose dimensions are both
at least 2, `ExcludeBorder` does not return (-4,-4)-(4,4) as the claim
requires for areas with negative coordinates (the code takes absolute
values of the shifted coordinates, yielding the degenerate (4,4)-(4,4)). -/
theorem excludeBorder_negative_counterexample :
    ExcludeBorder ⟨⟨-5, -5⟩, ⟨5, 5⟩⟩ ≠ ⟨⟨-4, -4⟩, ⟨4, 4⟩⟩ := by decide

/-- C3 (amended): for an area whose min-corner components are at least -1
(so the absolute-value normalisation the code applies to each coordinate
is the identity), `ExcludeBorder` returns the rectangle shrunk by one cell
on every side when both dimensions are at least 2, and the zero rectangle
when either dimension is below 2; it never errors.  In particular it maps
a 1×5 and a 5×1 rectangle to the zero rectangle and (0,0)-(4,4) to
(1,1)-(3,3). -/
theorem excludeBorder_spec (area : Rectangle)
    (hmx : -1 ≤ area.Min.X) (hmy : -1 ≤ area.Min.Y) :
    (2 ≤ area.Dx → 2 ≤ area.Dy →
      ExcludeBorder area =
        ⟨⟨area.Min.X + 1, area.Min.Y + 1⟩, ⟨area.Max.X - 1, area.Max.Y - 1⟩⟩) ∧
    (area.Dx < 2 ∨ area.Dy < 2 → ExcludeBorder area = ZR) ∧
    ExcludeBorder ⟨⟨0, 0⟩, ⟨1, 5⟩⟩ = ZR ∧
    ExcludeBorder ⟨⟨0, 0⟩, ⟨5, 1⟩⟩ = ZR ∧
    ExcludeBorder ⟨⟨0, 0⟩, ⟨4, 4⟩⟩ = ⟨⟨1, 1⟩, ⟨3, 3⟩⟩ := by
  refine ⟨fun h2x h2y => ?_, fun h => ?_, by decide, by decide, by decide⟩
  · have hdx : area.Min.X + 2 ≤ area.Max.X := by
      simp only [Rectangle.Dx] at h2x; linarith
    have hdy : area.Min.Y + 2 ≤ area.Max.Y := by
      simp only [Rectangle.Dy] at h2y; linarith
    unfold ExcludeBorder
    rw [if_neg (by omega), Abs_of_nonneg (by omega), Abs_of_nonneg (by omega),
      Abs_of_nonneg (by omega), Abs_of_nonneg (by omega),
      rect_of_le (by omega) (by omega)]
  · unfold ExcludeBorder
    rw [if_pos h]

/-- C3 witness: the amended theorem instantiated on the area (0,0)-(6,7). -/
theorem excludeBorder_spec_witness :
    ExcludeBorder ⟨⟨0, 0⟩, ⟨6, 7⟩⟩ = ⟨⟨1, 1⟩, ⟨5, 6⟩⟩ :=
  (excludeBorder_spec ⟨⟨0, 0⟩, ⟨6, 7⟩⟩ (by decide) (by decide)).1
    (by decide) (by decide)

/-- C8: for an area with `Min ≤ Max` componentwise, `FromSize (Size area)`
succeeds and returns the origin-anchored rectangle of the same width and
height; `FromSize` fails exactly when a component of the size is negative,
and the zero size yields the zero rectangle. -/
theorem fromSize_size_spec (area : Rectangle) (size : Point)
    (hx : area.Min.X ≤ area.Max.X) (hy : area.Min.Y ≤ area.Max.Y) :
    (FromSize (Size area) = (⟨⟨0, 0⟩, ⟨area.Dx, area.Dy⟩⟩, none) ∧
      (FromSize (Size area)).1.Dx = area.Dx ∧
      (FromSize (Size area)).1.Dy = area.Dy) ∧
    ((FromSize size).2 ≠ none ↔ size.X < 0 ∨ size.Y < 0) ∧
    FromSize ZP = (ZR, none) := by
  have hDx : 0 ≤ area.Dx := by simp only [Rectangle.Dx]; linarith
  have hDy : 0 ≤ area.Dy := by simp only [Rectangle.Dy]; linarith
  have hmain : FromSize (Size area) = (⟨⟨0, 0⟩, ⟨area.Dx, area.Dy⟩⟩, none) := by
    unfold FromSize Size
    rw [if_neg (by dsimp only; omega), rect_of_le hDx hDy]
  refine ⟨⟨hmain, ?_, ?_⟩, ?_, by decide⟩
  · rw [hmain]; simp
  · rw [hmain]; simp
  · unfold FromSize
    by_cases h : size.X < 0 ∨ size.Y < 0
    · rw [if_pos h]; simpa using h
    · rw [if_neg h]; simpa using h

/-- C8 witness: the theorem instantiated on the area (2,3)-(7,9) and the
size (-1,4). -/
theorem fromSize_size_spec_witness :
    FromSize (Size ⟨⟨2, 3⟩, ⟨7, 9⟩⟩) = (⟨⟨0, 0⟩, ⟨5, 6⟩⟩, none) ∧
      (FromSize ⟨-1, 4⟩).2 ≠ none := by
  have h := fromSize_size_spec ⟨⟨2, 3⟩, ⟨7, 9⟩⟩ ⟨-1, 4⟩ (by decide) (by decide)
  exact ⟨h.1.1, h.2.1.2 (by decide)⟩

theorem Shrink_inRange {area : Rectangle} {t r b l : Int}
    (ht : 0 ≤ t) (hr : 0 ≤ r) (hb : 0 ≤ b) (hl : 0 ≤ l) :
    Shrink area t r b l =
      (if max (area.Max.X - r) (min (area.Min.X + l) area.Max.X) -
            min (area.Min.X + l) area.Max.X = 0 ∨
          max (area.Max.Y - b) (min (area.Min.Y + t) area.Max.Y) -
            min (area.Min.Y + t) area.Max.Y = 0 then ZR
        else ⟨⟨min (area.Min.X + l) area.Max.X, min (area.Min.Y + t) area.Max.Y⟩,
          ⟨max (area.Max.X - r) (min (area.Min.X + l) area.Max.X),
            max (area.Max.Y - b) (min (area.Min.Y + t) area.Max.Y)⟩⟩,
       none) := by
  simp only [Shrink, if_neg (show ¬(t < 0 ∨ r < 0 ∨ b < 0 ∨ l < 0) by omega),
    MinMaxInts_pair, Rectangle.Dx, Rectangle.Dy]
  split_ifs <;> rfl

theorem Shrink_ok {area : Rectangle} {t r b l : Int}
    (ht : 0 ≤ t) (hr : 0 ≤ r) (hb : 0 ≤ b) (hl : 0 ≤ l) :
    (Shrink area t r b l).2 = none := by
  rw [Shrink_inRange ht hr hb hl]

theorem Shrink_err {area : Rectangle} {t r b l : Int}
    (h : (Shrink area t r b l).2 ≠ none) : (Shrink area t r b l).1 = ZR := by
  by_cases hneg : t < 0 ∨ r < 0 ∨ b < 0 ∨ l < 0
  · simp only [Shrink, if_pos hneg]
  · exact absurd (Shrink_ok (by omega) (by omega) (by omega) (by omega)) h

/-- C5: `Shrink` fails exactly when one of the four amounts is negative;
on success it never returns a rectangle of negative width or height, a
degenerate result is the zero rectangle, and (for a well-formed area) a
shrink amount exceeding the corresponding dimension yields the zero
rectangle. -/
theorem shrink_spec (area : Rectangle) (t r b l : Int) :
    ((Shrink area t r b l).2 ≠ none ↔ t < 0 ∨ r < 0 ∨ b < 0 ∨ l < 0) ∧
    (0 ≤ t → 0 ≤ r → 0 ≤ b → 0 ≤ l →
      (Shrink area t r b l).2 = none ∧
      0 ≤ (Shrink area t r b l).1.Dx ∧
      0 ≤ (Shrink area t r b l).1.Dy ∧
      ((Shrink area t r b l).1.Dx = 0 ∨ (Shrink area t r b l).1.Dy = 0 →
        (Shrink area t r b l).1 = ZR) ∧
      (area.Min.X ≤ area.Max.X → area.Min.Y ≤ area.Max.Y →
        area.Dx < l ∨ area.Dx < r ∨ area.Dy < t ∨ area.Dy < b →
        (Shrink area t r b l).1 = ZR)) := by
  constructor
  · by_cases hneg : t < 0 ∨ r < 0 ∨ b < 0 ∨ l < 0
    · simp only [Shrink, if_pos hneg]
      simp
      omega
    · rw [Shrink_ok (by omega) (by omega) (by omega) (by omega)]
      simp
      omega
  · intro ht hr hb hl
    rw [Shrink_inRange ht hr hb hl]
    refine ⟨?_, ?_, ?_, fun hz => ?_, fun hx hy hbig => ?_⟩
    · split_ifs <;> rfl
    · split_ifs <;> simp [ZR, ZP] <;> omega
    · split_ifs <;> simp [ZR, ZP] <;> omega
    · split_ifs at hz ⊢ with h1 <;> simp_all [ZR, ZP] <;> omega
    · simp only [Rectangle.Dx, Rectangle.Dy] at hbig
      split_ifs with h1 <;> simp_all [ZR, ZP] <;> omega

/-- C5 witness: the theorem instantiated on the area (0,0)-(10,10) with
shrink amounts 1, 2, 3, 20 (the left amount exceeds the width). -/
theorem shrink_spec_witness :
    (Shrink ⟨⟨0, 0⟩, ⟨10, 10⟩⟩ 1 2 3 20).2 = none ∧
      (Shrink ⟨⟨0, 0⟩, ⟨10, 10⟩⟩ 1 2 3 20).1 = ZR := by
  have h := (shrink_spec ⟨⟨0, 0⟩, ⟨10, 10⟩⟩ 1 2 3 20).2
    (by decide) (by decide) (by decide) (by decide)
  exact ⟨h.1, h.2.2.2.2 (by decide) (by decide) (by decide)⟩

/-- C6: `ShrinkPercent` on a well-formed area fails exactly when one of
the percentages is outside `[0, 100]`; within range it equals `Shrink`
applied to the four percentages converted by truncating integer division
of the corresponding dimension, and shrinking (0,0)-(10,10) by 50 percent
on every side yields the zero rectangle. -/
theorem shrinkPercent_spec (area : Rectangle) (tp rp bp lp : Int)
    (hx : area.Min.X ≤ area.Max.X) (hy : area.Min.Y ≤ area.Max.Y) :
    ((ShrinkPercent area tp rp bp lp).2 ≠ none ↔
      tp < 0 ∨ 100 < tp ∨ rp < 0 ∨ 100 < rp ∨
        bp < 0 ∨ 100 < bp ∨ lp < 0 ∨ 100 < lp) ∧
    (0 ≤ tp → tp ≤ 100 → 0 ≤ rp → rp ≤ 100 →
      0 ≤ bp → bp ≤ 100 → 0 ≤ lp → lp ≤ 100 →
      ShrinkPercent area tp rp bp lp =
        Shrink area (goDiv (area.Dy * tp) 100) (goDiv (area.Dx * rp) 100)
          (goDiv (area.Dy * bp) 100) (goDiv (area.Dx * lp) 100)) ∧
    ShrinkPercent ⟨⟨0, 0⟩, ⟨10, 10⟩⟩ 50 50 50 50 = (ZR, none) := by
  have hDx : 0 ≤ area.Dx := by simp only [Rectangle.Dx]; linarith
  have hDy : 0 ≤ area.Dy := by simp only [Rectangle.Dy]; linarith
  refine ⟨?_, fun h1 h2 h3 h4 h5 h6 h7 h8 => ?_, by decide⟩
  · by_cases hout : tp < 0 ∨ 100 < tp ∨ rp < 0 ∨ 100 < rp ∨
        bp < 0 ∨ 100 < bp ∨ lp < 0 ∨ 100 < lp
    · simp only [ShrinkPercent, if_pos (show tp < 0 ∨ tp > 100 ∨ rp < 0 ∨
        rp > 100 ∨ bp < 0 ∨ bp > 100 ∨ lp < 0 ∨ lp > 100 by omega)]
      simp
      omega
    · have e : ShrinkPercent area tp rp bp lp =
          Shrink area (goDiv (area.Dy * tp) 100) (goDiv (area.Dx * rp) 100)
            (goDiv (area.Dy * bp) 100) (goDiv (area.Dx * lp) 100) := by
        simp only [ShrinkPercent, if_neg (show ¬(tp < 0 ∨ tp > 100 ∨ rp < 0 ∨
          rp > 100 ∨ bp < 0 ∨ bp > 100 ∨ lp < 0 ∨ lp > 100) by omega)]
      rw [e, Shrink_ok (goDiv_nonneg (mul_nonneg hDy (by omega)) (by norm_num))
        (goDiv_nonneg (mul_nonneg hDx (by omega)) (by norm_num))
        (goDiv_nonneg (mul_nonneg hDy (by omega)) (by norm_num))
        (goDiv_nonneg (mul_nonneg hDx (by omega)) (by norm_num))]
      simp
      omega
  · simp only [ShrinkPercent, if_neg (show ¬(tp < 0 ∨ tp > 100 ∨ rp < 0 ∨
      rp > 100 ∨ bp < 0 ∨ bp > 100 ∨ lp < 0 ∨ lp > 100) by omega)]

/-- C6 witness: the theorem instantiated on the area (0,0)-(10,10) and the
percentages 50, 50, 50, 50. -/
theorem shrinkPercent_spec_witness :
    ShrinkPercent ⟨⟨0, 0⟩, ⟨10, 10⟩⟩ 50 50 50 50 =
      Shrink ⟨⟨0, 0⟩, ⟨10, 10⟩⟩ 5 5 5 5 :=
  (shrinkPercent_spec ⟨⟨0, 0⟩, ⟨10, 10⟩⟩ 50 50 50 50 (by decide) (by decide)).2.1
    (by decide) (by decide) (by decide) (by decide)
    (by decide) (by decide) (by decide) (by decide)

theorem ite_lt_min (a b : Int) : (if a < b then a else b) = min a b := by
  split_ifs with h <;> omega

theorem SimplifyRatio_components (p : Point) :
    SimplifyRatio p = ZP ∨
      (( SimplifyRatio p).X ≠ 0 ∧ ( SimplifyRatio p).Y ≠ 0) := by
  by_cases hp : p.X = 0 ∨ p.Y = 0
  · left
    simp only [ SimplifyRatio, if_pos hp]
  · right
    have hX : p.X ≠ 0 := fun h => hp (Or.inl h)
    have hY : p.Y ≠ 0 := fun h => hp (Or.inr h)
    obtain ⟨g, hgdef⟩ : ∃ g : Int, (↑(Int.gcd p.X p.Y) : Int) = g := ⟨_, rfl⟩
    have hg : g ≠ 0 := hgdef ▸
      Int.natCast_ne_zero.mpr fun h => hX (Int.gcd_eq_zero_iff.mp h).1
    obtain ⟨kx, hkx⟩ : g ∣ p.X := hgdef ▸ Int.gcd_dvd_left
    obtain ⟨ky, hky⟩ : g ∣ p.Y := hgdef ▸ Int.gcd_dvd_right
    simp only [ SimplifyRatio, if_neg hp, goDiv, hgdef]
    constructor
    · rw [hkx, Int.mul_tdiv_cancel_left kx hg]
      intro h
      exact hX (by rw [hkx, h, mul_zero])
    · rw [hky, Int.mul_tdiv_cancel_left ky hg]
      intro h
      exact hY (by rw [hky, h, mul_zero])

theorem withRatio_eq (area : Rectangle) (p : Point) :
    WithRatio area p = some ( withRatioSpec area p) := by
  rcases SimplifyRatio_components p with h | ⟨hX, hY⟩
  · simp only [ WithRatio, withRatioSpec, h]
    simp
  · by_cases hz : area = ZR ∨ SimplifyRatio p = ZP
    · simp only [ WithRatio, withRatioSpec, if_pos hz]
    · simp only [ WithRatio, withRatioSpec, if_neg hz,
        if_neg (show ¬(( SimplifyRatio p).X = 0 ∨ ( SimplifyRatio p).Y = 0) by
          tauto), ite_lt_min]

/-- C2: `WithRatio` is a total function: for every rectangle and every
ratio point — including ratios with exactly one zero component such as
(0, 5) — it returns a result (the `none` branch modelling Go's
division-by-zero panic is unreachable), so no `AreaMath` operation
crashes. -/
theorem withRatio_total (area : Rectangle) (p : Point) :
    (∃ res, WithRatio area p = some res) ∧
      WithRatio area ⟨0, 5⟩ = some ZR :=
  ⟨⟨ withRatioSpec area p, withRatio_eq area p⟩, by
    have h : SimplifyRatio ⟨0, 5⟩ = ZP := by decide
    simp only [ WithRatio, h]
    simp⟩

/-- C4: `WithRatio` computes exactly the algorithm the spec describes
(reduce the ratio by GCD, return the zero rectangle for a zero area or
zero reduced ratio, otherwise scale the reduced ratio by the minimum of
the two integer-division factors and anchor at the area's min corner);
in particular the ratio (4,2) reduces to (2,1) and
`WithRatio((0,0)-(8,4), (4,2))` returns (0,0)-(8,4). -/
theorem withRatio_algorithm (area : Rectangle) (p : Point) :
    WithRatio area p = some ( withRatioSpec area p) ∧
      SimplifyRatio ⟨4, 2⟩ = ⟨2, 1⟩ ∧
      WithRatio ⟨⟨0, 0⟩, ⟨8, 4⟩⟩ ⟨4, 2⟩ = some ⟨⟨0, 0⟩, ⟨8, 4⟩⟩ :=
  ⟨withRatio_eq area p, by decide, by decide⟩

/-- C7: `NewCellWithOpts` applies options in list order (appending an
option applies it last, to the cell built from the earlier options), later
options overwrite earlier ones targeting the same field (two `CellColSpan`
options leave the second value), and with no options every field keeps its
construction default: the given data, `colSpan = 1`, `rowSpan = 1`, and
the all-unset hierarchical options record. -/
theorem newCellWithOpts_spec (data : List Data) (opts : List CellOption)
    (opt : CellOption) :
    (NewCellWithOpts data [CellColSpan 2, CellColSpan 3]).colSpan = 3 ∧
      NewCellWithOpts data [] = ⟨data, 1, 1, emptyHierarchicalOptions⟩ ∧
      NewCellWithOpts data (opts ++ [opt]) = opt (NewCellWithOpts data opts) := by
  refine ⟨rfl, rfl, ?_⟩
  simp [NewCellWithOpts, List.foldl_append]

/-- C9: each of the nine cell option setters writes exactly one field of
the Cell or of its hierarchical options record and leaves every other
field unchanged. -/
theorem cellOption_frame (c : Cell) (cols rows height hpad vpad : Int)
    (co : List StyleOption) (ah : Horizontal) (av : Vertical) :
    ((CellColSpan cols c).colSpan = cols ∧
      (CellColSpan cols c).data = c.data ∧
      (CellColSpan cols c).rowSpan = c.rowSpan ∧
      (CellColSpan cols c).hierarchical = c.hierarchical) ∧
    ((CellRowSpan rows c).rowSpan = rows ∧
      (CellRowSpan rows c).data = c.data ∧
      (CellRowSpan rows c).colSpan = c.colSpan ∧
      (CellRowSpan rows c).hierarchical = c.hierarchical) ∧
    ((CellOpts co c).hierarchical.cellOpts = co ∧
      (CellOpts co c).data = c.data ∧
      (CellOpts co c).colSpan = c.colSpan ∧
      (CellOpts co c).rowSpan = c.rowSpan ∧
      (CellOpts co c).hierarchical.height = c.hierarchical.height ∧
      (CellOpts co c).hierarchical.horizontalPadding =
        c.hierarchical.horizontalPadding ∧
      (CellOpts co c).hierarchical.verticalPadding =
        c.hierarchical.verticalPadding ∧
      (CellOpts co c).hierarchical.alignHorizontal =
        c.hierarchical.alignHorizontal ∧
      (CellOpts co c).hierarchical.alignVertical =
        c.hierarchical.alignVertical ∧
      (CellOpts co c).hierarchical.wrapMode = c.hierarchical.wrapMode) ∧
    ((CellHeight height c).hierarchical.height = some height ∧
      (CellHeight height c).data = c.data ∧
      (CellHeight height c).colSpan = c.colSpan ∧
      (CellHeight height c).rowSpan = c.rowSpan ∧
      (CellHeight height c).hierarchical.cellOpts = c.hierarchical.cellOpts ∧
      (CellHeight height c).hierarchical.horizontalPadding =
        c.hierarchical.horizontalPadding ∧
      (CellHeight height c).hierarchical.verticalPadding =
        c.hierarchical.verticalPadding ∧
      (CellHeight height c).hierarchical.alignHorizontal =
        c.hierarchical.alignHorizontal ∧
      (CellHeight height c).hierarchical.alignVertical =
        c.hierarchical.alignVertical ∧
      (CellHeight height c).hierarchical.wrapMode = c.hierarchical.wrapMode) ∧
    ((CellHorizontalPadding hpad c).hierarchical.horizontalPadding =
        some hpad ∧
      (CellHorizontalPadding hpad c).data = c.data ∧
      (CellHorizontalPadding hpad c).colSpan = c.colSpan ∧
      (CellHorizontalPadding hpad c).rowSpan = c.rowSpan ∧
      (CellHorizontalPadding hpad c).hierarchical.cellOpts =
        c.hierarchical.cellOpts ∧
      (CellHorizontalPadding hpad c).hierarchical.height =
        c.hierarchical.height ∧
      (CellHorizontalPadding hpad c).hierarchical.verticalPadding =
        c.hierarchical.verticalPadding ∧
      (CellHorizontalPadding hpad c).hierarchical.alignHorizontal =
        c.hierarchical.alignHorizontal ∧
      (CellHorizontalPadding hpad c).hierarchical.alignVertical =
        c.hierarchical.alignVertical ∧
      (CellHorizontalPadding hpad c).hierarchical.wrapMode =
        c.hierarchical.wrapMode) ∧
    ((CellVerticalPadding vpad c).hierarchical.verticalPadding = some vpad ∧
      (CellVerticalPadding vpad c).data = c.data ∧
      (CellVerticalPadding vpad c).colSpan = c.colSpan ∧
      (CellVerticalPadding vpad c).rowSpan = c.rowSpan ∧
      (CellVerticalPadding vpad c).hierarchical.cellOpts =
        c.hierarchical.cellOpts ∧
      (CellVerticalPadding vpad c).hierarchical.height =
        c.hierarchical.height ∧
      (CellVerticalPadding vpad c).hierarchical.horizontalPadding =
        c.hierarchical.horizontalPadding ∧
      (CellVerticalPadding vpad c).hierarchical.alignHorizontal =
        c.hierarchical.alignHorizontal ∧
      (CellVerticalPadding vpad c).hierarchical.alignVertical =
        c.hierarchical.alignVertical ∧
      (CellVerticalPadding vpad c).hierarchical.wrapMode =
        c.hierarchical.wrapMode) ∧
    ((CellAlignHorizontal ah c).hierarchical.alignHorizontal = some ah ∧
      (CellAlignHorizontal ah c).data = c.data ∧
      (CellAlignHorizontal ah c).colSpan = c.colSpan ∧
      (CellAlignHorizontal ah c).rowSpan = c.rowSpan ∧
      (CellAlignHorizontal ah c).hierarchical.cellOpts =
        c.hierarchical.cellOpts ∧
      (CellAlignHorizontal ah c).hierarchical.height =
        c.hierarchical.height ∧
      (CellAlignHorizontal ah c).hierarchical.horizontalPadding =
        c.hierarchical.horizontalPadding ∧
      (CellAlignHorizontal ah c).hierarchical.verticalPadding =
        c.hierarchical.verticalPadding ∧
      (CellAlignHorizontal ah c).hierarchical.alignVertical =
        c.hierarchical.alignVertical ∧
      (CellAlignHorizontal ah c).hierarchical.wrapMode =
        c.hierarchical.wrapMode) ∧
    ((CellAlignVertical av c).hierarchical.alignVertical = some av ∧
      (CellAlignVertical av c).data = c.data ∧
      (CellAlignVertical av c).colSpan = c.colSpan ∧
      (CellAlignVertical av c).rowSpan = c.rowSpan ∧
      (CellAlignVertical av c).hierarchical.cellOpts =
        c.hierarchical.cellOpts ∧
      (CellAlignVertical av c).hierarchical.height = c.hierarchical.height ∧
      (CellAlignVertical av c).hierarchical.horizontalPadding =
        c.hierarchical.horizontalPadding ∧
      (CellAlignVertical av c).hierarchical.verticalPadding =
        c.hierarchical.verticalPadding ∧
      (CellAlignVertical av c).hierarchical.alignHorizontal =
        c.hierarchical.alignHorizontal ∧
      (CellAlignVertical av c).hierarchical.wrapMode =
        c.hierarchical.wrapMode) ∧
    ((CellWrapAtWords c).hierarchical.wrapMode = some WrapMode.atWords ∧
      (CellWrapAtWords c).data = c.data ∧
      (CellWrapAtWords c).colSpan = c.colSpan ∧
      (CellWrapAtWords c).rowSpan = c.rowSpan ∧
      (CellWrapAtWords c).hierarchical.cellOpts = c.hierarchical.cellOpts ∧
      (CellWrapAtWords c).hierarchical.height = c.hierarchical.height ∧
      (CellWrapAtWords c).hierarchical.horizontalPadding =
        c.hierarchical.horizontalPadding ∧
      (CellWrapAtWords c).hierarchical.verticalPadding =
        c.hierarchical.verticalPadding ∧
      (CellWrapAtWords c).hierarchical.alignHorizontal =
        c.hierarchical.alignHorizontal ∧
      (CellWrapAtWords c).hierarchical.alignVertical =
        c.hierarchical.alignVertical) := by
  and_intros <;> rfl

theorem HSplit_noerr {area : Rectangle} {perc : Int}
    (hp : ¬(perc < 0 ∨ perc > 100)) : (HSplit area perc).2.2 = none := by
  simp only [HSplit, if_neg hp]

theorem VSplit_noerr {area : Rectangle} {perc : Int}
    (hp : ¬(perc < 0 ∨ perc > 100)) : (VSplit area perc).2.2 = none := by
  simp only [VSplit, if_neg hp]

/-- C10: whenever one of the validated operations returns an error, every
rectangle returned alongside the error is the zero rectangle. -/
theorem error_zero_geometry (area : Rectangle) (perc t r b l tp rp bp lp : Int) :
    ((HSplit area perc).2.2 ≠ none →
      (HSplit area perc).1 = ZR ∧ (HSplit area perc).2.1 = ZR) ∧
    ((VSplit area perc).2.2 ≠ none →
      (VSplit area perc).1 = ZR ∧ (VSplit area perc).2.1 = ZR) ∧
    ((Shrink area t r b l).2 ≠ none → (Shrink area t r b l).1 = ZR) ∧
    ((ShrinkPercent area tp rp bp lp).2 ≠ none →
      (ShrinkPercent area tp rp bp lp).1 = ZR) := by
  refine ⟨fun h => ?_, fun h => ?_, Shrink_err, fun h => ?_⟩
  · by_cases hp : perc < 0 ∨ perc > 100
    · simp only [HSplit, if_pos hp]
      constructor <;> trivial
    · exact absurd (HSplit_noerr hp) h
  · by_cases hp : perc < 0 ∨ perc > 100
    · simp only [VSplit, if_pos hp]
      constructor <;> trivial
    · exact absurd (VSplit_noerr hp) h
  · by_cases hp : tp < 0 ∨ tp > 100 ∨ rp < 0 ∨ rp > 100 ∨
        bp < 0 ∨ bp > 100 ∨ lp < 0 ∨ lp > 100
    · simp only [ShrinkPercent, if_pos hp]
    · have e : ShrinkPercent area tp rp bp lp =
          Shrink area (goDiv (area.Dy * tp) 100) (goDiv (area.Dx * rp) 100)
            (goDiv (area.Dy * bp) 100) (goDiv (area.Dx * lp) 100) := by
        simp only [ShrinkPercent, if_neg hp]
      rw [e] at h ⊢
      exact Shrink_err h

/-- C10 witness: the theorem instantiated on the area (0,0)-(5,5) with the
failing percentage -1 and the failing shrink amount -1. -/
theorem error_zero_geometry_witness :
    (HSplit ⟨⟨0, 0⟩, ⟨5, 5⟩⟩ (-1)).1 = ZR ∧
      (HSplit ⟨⟨0, 0⟩, ⟨5, 5⟩⟩ (-1)).2.1 = ZR ∧
      (VSplit ⟨⟨0, 0⟩, ⟨5, 5⟩⟩ (-1)).1 = ZR ∧
      (VSplit ⟨⟨0, 0⟩, ⟨5, 5⟩⟩ (-1)).2.1 = ZR ∧
      (Shrink ⟨⟨0, 0⟩, ⟨5, 5⟩⟩ (-1) 0 0 0).1 = ZR ∧
      (ShrinkPercent ⟨⟨0, 0⟩, ⟨5, 5⟩⟩ (-1) 0 0 0).1 = ZR := by
  have h := error_zero_geometry ⟨⟨0, 0⟩, ⟨5, 5⟩⟩ (-1) (-1) 0 0 0 (-1) 0 0 0
  exact ⟨(h.1 (by decide)).1, (h.1 (by decide)).2, (h.2.1 (by decide)).1,
    (h.2.1 (by decide)).2, h.2.2.1 (by decide), h.2.2.2 (by decide)⟩

end Termdash
